import Mathlib

/-!
# Verification of the feature-map visualization driver

A shallow embedding of `main.py` of the featuremap-visualization repository,
together with theorems settling the specification's claims about it.

Conventions of the embedding:
* floating-point values become exact rationals (`ℚ`); the literal `0.000001`
  of `draw_features` becomes `1/1000000`;
* a numpy array becomes a `List ℚ` (one attribution map, flattened), a
  feature-map batch becomes `List (List (List ℚ))` (samples × channels ×
  flattened pixels);
* fallible code returns `Except`;
* the imperative driver `visualization` becomes an explicit trace of the
  method-lifecycle events it performs, in program order;
* the `grad_cam` module (`BackPropagation`, `Deconvnet`, `GradCAM`,
  `GuidedBackPropagation`) is imported by `main.py` but its source is not part
  of the files under verification; the definitions that stand in for it are
  marked `Modelled from the spec:` and follow the specification's words.
-/

/-- Minimum of a list of rationals, as `np.min` on a nonempty array
(the `[]` case is junk: numpy raises there). -/
def listMin : List ℚ → ℚ
  | [] => 0
  | x :: xs => xs.foldl min x

/-- Maximum of a list of rationals, as `np.max` on a nonempty array. -/
def listMax : List ℚ → ℚ
  | [] => 0
  | x :: xs => xs.foldl max x

theorem foldl_min_le_init (xs : List ℚ) : ∀ a : ℚ, xs.foldl min a ≤ a := by
  induction xs with
  | nil => intro a; exact le_refl a
  | cons x t ih =>
    intro a
    calc (x :: t).foldl min a = t.foldl min (min a x) := rfl
    _ ≤ min a x := ih (min a x)
    _ ≤ a := min_le_left a x

theorem foldl_min_le_mem (xs : List ℚ) :
    ∀ a x : ℚ, x ∈ xs → xs.foldl min a ≤ x := by
  induction xs with
  | nil => intro a x hx; cases hx
  | cons y t ih =>
    intro a x hx
    rcases List.mem_cons.mp hx with h | h
    · subst h
      calc (x :: t).foldl min a = t.foldl min (min a x) := rfl
      _ ≤ min a x := foldl_min_le_init t (min a x)
      _ ≤ x := min_le_right a x
    · exact ih (min a y) x h

theorem init_le_foldl_max (xs : List ℚ) : ∀ a : ℚ, a ≤ xs.foldl max a := by
  induction xs with
  | nil => intro a; exact le_refl a
  | cons x t ih =>
    intro a
    calc a ≤ max a x := le_max_left a x
    _ ≤ t.foldl max (max a x) := ih (max a x)
    _ = (x :: t).foldl max a := rfl

theorem mem_le_foldl_max (xs : List ℚ) :
    ∀ a x : ℚ, x ∈ xs → x ≤ xs.foldl max a := by
  induction xs with
  | nil => intro a x hx; cases hx
  | cons y t ih =>
    intro a x hx
    rcases List.mem_cons.mp hx with h | h
    · subst h
      calc x ≤ max a x := le_max_right a x
      _ ≤ t.foldl max (max a x) := init_le_foldl_max t (max a x)
      _ = (x :: t).foldl max a := rfl
    · exact ih (max a y) x h

theorem listMin_le_of_mem {l : List ℚ} {x : ℚ} (hx : x ∈ l) : listMin l ≤ x := by
  cases l with
  | nil => cases hx
  | cons y t =>
    rcases List.mem_cons.mp hx with h | h
    · subst h; exact foldl_min_le_init t x
    · exact foldl_min_le_mem t y x h

theorem le_listMax_of_mem {l : List ℚ} {x : ℚ} (hx : x ∈ l) : x ≤ listMax l := by
  cases l with
  | nil => cases hx
  | cons y t =>
    rcases List.mem_cons.mp hx with h | h
    · subst h; exact init_le_foldl_max t x
    · exact mem_le_foldl_max t y x h

/-- On a nonempty list whose range is degenerate (max = min) every element
equals the minimum. -/
theorem eq_listMin_of_degenerate {l : List ℚ} (hdeg : listMax l = listMin l)
    {x : ℚ} (hx : x ∈ l) : x = listMin l :=
  le_antisymm (hdeg ▸ le_listMax_of_mem hx) (listMin_le_of_mem hx)

theorem foldl_max_const (c : ℚ) :
    ∀ t : List ℚ, (∀ x ∈ t, x = c) → t.foldl max c = c := by
  intro t
  induction t with
  | nil => intro _; rfl
  | cons z u ih =>
    intro h
    have hz : z = c := h z (List.mem_cons_self z u)
    show u.foldl max (max c z) = c
    rw [hz, max_self]
    exact ih (fun x hx => h x (List.mem_cons_of_mem z hx))

theorem listMax_eq_of_forall_eq {l : List ℚ} {c : ℚ} (hne : l ≠ [])
    (h : ∀ x ∈ l, x = c) : listMax l = c := by
  cases l with
  | nil => exact absurd rfl hne
  | cons y t =>
    have hy : y = c := h y (List.mem_cons_self y t)
    show t.foldl max y = c
    rw [hy]
    exact foldl_max_const c t (fun x hx => h x (List.mem_cons_of_mem y hx))

/-! ## `save_gradient` and `draw_features` normalization (claims C1, C10)

`save_gradient` (main.py lines 87-92):
```
gradient -= gradient.min()
gradient /= gradient.max()
gradient *= 255.0
```
The division is by the maximum of the already-shifted array, i.e. by
`max - min` of the original, with no epsilon.

`draw_features` (main.py lines 40-43) normalizes each channel by
`(img - pmin) / (pmax - pmin + 0.000001)`.
-/

/-- The denominator `save_gradient` divides by: the maximum of the gradient
after subtracting its minimum (main.py line 90). -/
def saveGradientDenom (g : List ℚ) : ℚ :=
  listMax (g.map (fun v => v - listMin g))

/-- `save_gradient`'s pixel normalization (main.py lines 88-91): shift by the
minimum, divide by the shifted maximum, scale to 255. -/
def save_gradient (g : List ℚ) : List ℚ :=
  (g.map (fun v => v - listMin g)).map (fun v => v / saveGradientDenom g * 255)

/-- The denominator `draw_features` divides by (main.py line 43):
`pmax - pmin + 0.000001`. -/
def drawFeaturesDenom (img : List ℚ) : ℚ :=
  listMax img - listMin img + 1 / 1000000

/-- Per-channel min-max normalization of `draw_features` (main.py lines 40-43):
`(img - pmin) / (pmax - pmin + 0.000001)`. -/
def normalizeChannel (img : List ℚ) : List ℚ :=
  img.map (fun v => (v - listMin img) / drawFeaturesDenom img)

/-- Claim C1 as stated: on every nonempty degenerate-range map, both rendering
normalization steps divide by a nonzero, epsilon-augmented denominator. -/
def normalizesWithEpsilonProp : Prop :=
  ∀ g : List ℚ, g ≠ [] → listMax g = listMin g →
    saveGradientDenom g ≠ 0 ∧ drawFeaturesDenom g ≠ 0

theorem saveGradientDenom_eq_zero_of_degenerate {g : List ℚ} (hne : g ≠ [])
    (hdeg : listMax g = listMin g) : saveGradientDenom g = 0 := by
  unfold saveGradientDenom
  apply listMax_eq_of_forall_eq
  · intro h
    exact hne (List.map_eq_nil_iff.mp h)
  · intro x hx
    rcases List.mem_map.mp hx with ⟨v, hv, rfl⟩
    rw [eq_listMin_of_degenerate hdeg hv, sub_self]

/-- C1: counterexample to the claim as stated. On the all-zero gradient
`[0, 0]` (a degenerate-range map) `save_gradient`'s denominator is exactly
zero: the epsilon augmentation exists only in `draw_features`, not in
`save_gradient`. -/
theorem save_gradient_zero_denominator_on_degenerate_map :
    ¬ normalizesWithEpsilonProp := by
  intro h
  exact (h [0, 0] (by decide) (by simp [listMax, listMin])).1
    (by simp [saveGradientDenom, listMax, listMin])

/-- C1 (amended): on a nonempty degenerate-range map, `draw_features`
normalizes with the epsilon-augmented denominator `0.000001` (nonzero), but
`save_gradient` divides by `max - min`, which is zero there. -/
theorem normalization_epsilon_only_in_draw_features (g : List ℚ)
    (hne : g ≠ []) (hdeg : listMax g = listMin g) :
    drawFeaturesDenom g = 1 / 1000000 ∧ drawFeaturesDenom g ≠ 0 ∧
      saveGradientDenom g = 0 := by
  refine ⟨?_, ?_, saveGradientDenom_eq_zero_of_degenerate hne hdeg⟩
  · unfold drawFeaturesDenom
    rw [hdeg, sub_self, zero_add]
  · unfold drawFeaturesDenom
    rw [hdeg, sub_self, zero_add]
    norm_num

theorem normalization_epsilon_only_in_draw_features_witness :
    ([(2 : ℚ), 2] ≠ [] ∧ listMax [(2 : ℚ), 2] = listMin [(2 : ℚ), 2]) ∧
      (drawFeaturesDenom [2, 2] = 1 / 1000000 ∧ drawFeaturesDenom [2, 2] ≠ 0 ∧
        saveGradientDenom [2, 2] = 0) :=
  ⟨⟨by decide, by simp [listMax, listMin]⟩,
    normalization_epsilon_only_in_draw_features [2, 2] (by decide)
      (by simp [listMax, listMin])⟩

/-- The inner loop of `draw_features` (main.py lines 37-43) on one sample:
`for j in range(width*height): img = x[i, j, :, :]; normalize`. Renders `n`
channels starting at channel index `j`; indexing past the channel dimension is
an out-of-bounds failure. -/
def renderChannels (s : List (List ℚ)) : Nat → Nat → Except String (List (List ℚ))
  | _, 0 => .ok []
  | j, Nat.succ n =>
    match s.get? j with
    | some ch =>
      match renderChannels s (j + 1) n with
      | .ok rest => .ok (normalizeChannel ch :: rest)
      | .error e => .error e
    | none => .error "channel index out of range"

/-- `draw_features width height x` (main.py lines 32-51): for each sample of
`x`, render channels `0 .. width*height - 1`, each min-max normalized with the
epsilon denominator. The figure/colorbar plotting side effects are dropped;
the per-channel maps are returned instead of written. -/
def draw_features (width height : Nat) :
    List (List (List ℚ)) → Except String (List (List (List ℚ)))
  | [] => .ok []
  | s :: rest =>
    match renderChannels s 0 (width * height) with
    | .ok r =>
      match draw_features width height rest with
      | .ok rs => .ok (r :: rs)
      | .error e => .error e
    | .error e => .error e

/-- The driver's only call of `draw_features` uses a 4x4 grid
(main.py line 298): `draw_features(4, 4, feature_map, output_dir, target_layer)`. -/
def driverDrawFeatures (x : List (List (List ℚ))) :
    Except String (List (List (List ℚ))) :=
  draw_features 4 4 x

theorem renderChannels_ok (s : List (List ℚ)) :
    ∀ n j : Nat, j + n ≤ s.length →
      renderChannels s j n = .ok (((s.drop j).take n).map normalizeChannel) := by
  intro n
  induction n with
  | zero => intro j _; simp [renderChannels]
  | succ n ih =>
    intro j hle
    have hj : j < s.length := by omega
    have hget : s.get? j = some s[j] := List.get?_eq_get hj
    rw [renderChannels, hget, ih (j + 1) (by omega)]
    rw [List.drop_eq_getElem_cons hj, List.take_succ_cons, List.map_cons]

theorem renderChannels_err (s : List (List ℚ)) :
    ∀ n j : Nat, j ≤ s.length → s.length < j + n →
      ∃ e, renderChannels s j n = .error e := by
  intro n
  induction n with
  | zero => intro j hj hlt; omega
  | succ n ih =>
    intro j hj hlt
    by_cases hcase : j < s.length
    · have hget : s.get? j = some s[j] := List.get?_eq_get hcase
      obtain ⟨e, he⟩ := ih (j + 1) (by omega) (by omega)
      exact ⟨e, by rw [renderChannels, hget, he]⟩
    · have hend : j = s.length := by omega
      have hget : s.get? j = none := by
        rw [List.get?_eq_none]
        omega
      exact ⟨"channel index out of range", by rw [renderChannels, hget]⟩

theorem draw_features_ok (width height : Nat) :
    ∀ x : List (List (List ℚ)), (∀ s ∈ x, width * height ≤ s.length) →
      draw_features width height x =
        .ok (x.map fun s => ((s.take (width * height)).map normalizeChannel)) := by
  intro x
  induction x with
  | nil => intro _; simp [draw_features]
  | cons s rest ih =>
    intro h
    have hs : width * height ≤ s.length := h s (List.mem_cons_self s rest)
    have h0 : renderChannels s 0 (width * height) =
        .ok (((s.drop 0).take (width * height)).map normalizeChannel) :=
      renderChannels_ok s (width * height) 0 (by omega)
    rw [draw_features, h0, ih (fun t ht => h t (List.mem_cons_of_mem s ht))]
    simp

theorem draw_features_err (width height : Nat) :
    ∀ x : List (List (List ℚ)), (∃ s ∈ x, s.length < width * height) →
      ∃ e, draw_features width height x = .error e := by
  intro x
  induction x with
  | nil => rintro ⟨s, hs, _⟩; cases hs
  | cons s rest ih =>
    rintro ⟨t, ht, hlt⟩
    rcases List.mem_cons.mp ht with h | h
    · subst h
      obtain ⟨e, he⟩ := renderChannels_err t (width * height) 0 (by omega) (by omega)
      exact ⟨e, by rw [draw_features, he]⟩
    · rcases hres : renderChannels s 0 (width * height) with e | r
      · exact ⟨e, by rw [draw_features, hres]⟩
      · obtain ⟨e, he⟩ := ih ⟨t, h, hlt⟩
        exact ⟨e, by rw [draw_features, hres, he]⟩

/-- C10: `draw_features width height x` renders exactly the first
`width*height` channels of each sample, each min-max normalized with the
epsilon denominator; it succeeds precisely when every sample has at least
`width*height` channels, and fails with an out-of-bounds error otherwise. The
driver instantiates it with a 4x4 grid, i.e. 16 channels. -/
theorem draw_features_first_channels (width height : Nat)
    (x : List (List (List ℚ))) :
    ((∀ s ∈ x, width * height ≤ s.length) →
      draw_features width height x =
        .ok (x.map fun s => ((s.take (width * height)).map normalizeChannel))) ∧
    ((∃ s ∈ x, s.length < width * height) →
      ∃ e, draw_features width height x = .error e) ∧
    ((∀ s ∈ x, 16 ≤ s.length) →
      driverDrawFeatures x =
        .ok (x.map fun s => ((s.take 16).map normalizeChannel))) ∧
    ((∃ s ∈ x, s.length < 16) →
      ∃ e, driverDrawFeatures x = .error e) := by
  refine ⟨draw_features_ok width height x, draw_features_err width height x, ?_, ?_⟩
  · intro h
    exact draw_features_ok 4 4 x h
  · intro h
    exact draw_features_err 4 4 x h

theorem draw_features_first_channels_witness :
    ((∀ s ∈ [List.replicate 16 [(1 : ℚ), 3]], 16 ≤ s.length) ∧
      driverDrawFeatures [List.replicate 16 [(1 : ℚ), 3]] =
        .ok [((List.replicate 16 [(1 : ℚ), 3]).take 16).map normalizeChannel]) ∧
    ((∃ s ∈ [[[(0 : ℚ)]]], s.length < 16) ∧
      ∃ e, driverDrawFeatures [[[(0 : ℚ)]]] = .error e) :=
  ⟨⟨by decide,
    (draw_features_first_channels 4 4 [List.replicate 16 [(1 : ℚ), 3]]).2.2.1
      (by decide)⟩,
   ⟨⟨[[(0 : ℚ)]], by decide, by decide⟩,
    (draw_features_first_channels 4 4 [[[(0 : ℚ)]]]).2.2.2
      ⟨[[(0 : ℚ)]], by decide, by decide⟩⟩⟩

/-! ## `save_gradcam` blending (claim C5)

main.py lines 95-103:
```
gcam = gcam.cpu().numpy()
cmap = cm.jet_r(gcam)[..., :3] * 255.0
if paper_cmap:
    alpha = gcam[..., None]
    gcam = alpha * cmap + (1 - alpha) * raw_image
else:
    gcam = (cmap.astype(np.float) + raw_image.astype(np.float)) / 2
```
The `cm.jet_r` colormap is an external matplotlib collaborator; it is
abstracted as an arbitrary per-value function `cmapFn`, and one color channel
of the composite is modelled (all three behave identically). -/

/-- The colormap stage of `save_gradcam` (main.py line 97):
`cm.jet_r(gcam)[..., :3] * 255.0`, elementwise over the attribution map. -/
def gradcamColormap (cmapFn : ℚ → ℚ) (gcam : List ℚ) : List ℚ :=
  gcam.map (fun v => cmapFn v * 255)

/-- The composite `save_gradcam` writes (main.py lines 98-103), before the
`np.uint8` cast: a 50/50 mix of colormap and raw image by default, or the
alpha-weighted blend (alpha = attribution value) when `paper_cmap` is set. -/
def save_gradcam (cmapFn : ℚ → ℚ) (paper_cmap : Bool)
    (gcam raw_image : List ℚ) : List ℚ :=
  let cmap := gradcamColormap cmapFn gcam
  if paper_cmap then
    List.zipWith (fun ac r => ac.1 * ac.2 + (1 - ac.1) * r) (gcam.zip cmap)
      raw_image
  else
    List.zipWith (fun c r => (c + r) / 2) cmap raw_image

/-- C5: pixelwise, the default composite is the fixed 50/50 mix
`(colormap + raw) / 2`, and the `paper_cmap` composite is
`alpha * colormap + (1 - alpha) * raw` with alpha the attribution value
itself; the mode is selected by the `paper_cmap` flag. -/
theorem save_gradcam_blend_modes (cmapFn : ℚ → ℚ) (gcam raw_image : List ℚ)
    (i : Nat) (h1 : i < gcam.length) (h2 : i < raw_image.length) :
    (save_gradcam cmapFn false gcam raw_image)[i]? =
      some ((cmapFn (gcam.get ⟨i, h1⟩) * 255 + raw_image.get ⟨i, h2⟩) / 2) ∧
    (save_gradcam cmapFn true gcam raw_image)[i]? =
      some (gcam.get ⟨i, h1⟩ * (cmapFn (gcam.get ⟨i, h1⟩) * 255) +
        (1 - gcam.get ⟨i, h1⟩) * raw_image.get ⟨i, h2⟩) := by
  have hc : i < (gradcamColormap cmapFn gcam).length := by
    simpa [gradcamColormap] using h1
  constructor
  · show (List.zipWith (fun c r => (c + r) / 2) (gradcamColormap cmapFn gcam)
      raw_image)[i]? = _
    rw [List.getElem?_zipWith, List.getElem?_eq_getElem hc,
      List.getElem?_eq_getElem h2]
    simp [gradcamColormap, List.get_eq_getElem]
  · show (List.zipWith (fun ac r => ac.1 * ac.2 + (1 - ac.1) * r)
      (gcam.zip (gradcamColormap cmapFn gcam)) raw_image)[i]? = _
    have hz : i < (gcam.zip (gradcamColormap cmapFn gcam)).length := by
      simp [List.length_zip, gradcamColormap]
      omega
    rw [List.getElem?_zipWith, List.getElem?_eq_getElem hz,
      List.getElem?_eq_getElem h2]
    simp [List.getElem_zip, gradcamColormap, List.get_eq_getElem]

theorem save_gradcam_blend_modes_witness :
    (save_gradcam (fun v => v) false [(1 : ℚ)/4] [(60 : ℚ)])[0]? =
      some (495/8) ∧
    (save_gradcam (fun v => v) true [(1 : ℚ)/4] [(60 : ℚ)])[0]? =
      some (975/16) := by
  have h := save_gradcam_blend_modes (fun v => v) [(1 : ℚ)/4] [(60 : ℚ)] 0
    (by decide) (by decide)
  constructor
  · rw [h.1]
    norm_num [List.get_eq_getElem]
  · rw [h.2]
    norm_num [List.get_eq_getElem]

/-! ## `preprocess` (claim C8)

main.py lines 75-84:
```
raw_image = cv2.imread(image_path)
raw_image = cv2.resize(raw_image, (128, 384))
image = transforms.Compose([
    transforms.ToTensor(),
    transforms.Normalize(mean=[0.485, 0.456, 0.406], std=[0.229, 0.224, 0.225]),
])(raw_image[..., ::-1].copy())
return image, raw_image
```
The image codec (`cv2`) is an external collaborator; its resize is modelled as
an index remapping that is concrete about the output shape (the only property
the claims use) and abstract about interpolation. `cv2.resize(img, (w, h))`
takes `dsize = (width, height)`. -/

/-- A decoded image: `height × width` pixels, each a B,G,R triple of
rationals (cv2 channel order). -/
structure RawImage where
  height : Nat
  width : Nat
  pix : Nat → Nat → ℚ × ℚ × ℚ

/-- The external `cv2.resize(img, (dsizeW, dsizeH))`: output has width
`dsizeW`, height `dsizeH`; pixels are sampled from the source grid. -/
def cv2_resize (dsizeW dsizeH : Nat) (img : RawImage) : RawImage where
  height := dsizeH
  width := dsizeW
  pix := fun i j => img.pix (i * img.height / dsizeH) (j * img.width / dsizeW)

/-- `raw_image[..., ::-1]`: reverse the channel order (BGR to RGB). -/
def reverseChannels (img : RawImage) : RawImage where
  height := img.height
  width := img.width
  pix := fun i j => ((img.pix i j).2.2, (img.pix i j).2.1, (img.pix i j).1)

/-- A C×H×W float tensor. -/
structure Tensor3 where
  channels : Nat
  height : Nat
  width : Nat
  val : Nat → Nat → Nat → ℚ

/-- `transforms.ToTensor()`: HWC pixel array in 0..255 to CHW tensor in 0..1. -/
def toTensor (img : RawImage) : Tensor3 where
  channels := 3
  height := img.height
  width := img.width
  val := fun c i j =>
    (match c with
     | 0 => (img.pix i j).1
     | 1 => (img.pix i j).2.1
     | _ => (img.pix i j).2.2) / 255

/-- The per-channel means of `transforms.Normalize` (main.py line 81). -/
def normMean : Nat → ℚ
  | 0 => 485 / 1000
  | 1 => 456 / 1000
  | _ => 406 / 1000

/-- The per-channel standard deviations of `transforms.Normalize`
(main.py line 81). -/
def normStd : Nat → ℚ
  | 0 => 229 / 1000
  | 1 => 224 / 1000
  | _ => 225 / 1000

/-- `transforms.Normalize(mean, std)`: `(v - mean[c]) / std[c]` per channel. -/
def normalizeTensor (t : Tensor3) : Tensor3 where
  channels := t.channels
  height := t.height
  width := t.width
  val := fun c i j => (t.val c i j - normMean c) / normStd c

/-- `preprocess` (main.py lines 75-84): resize the decoded image to the fixed
`dsize = (128, 384)`, then reverse channels, convert to a tensor and
normalize; returns the tensor and the resized raw image. -/
def preprocess (img : RawImage) : Tensor3 × RawImage :=
  let raw_image := cv2_resize 128 384 img
  (normalizeTensor (toTensor (reverseChannels raw_image)), raw_image)

/-- C8: every input image is resized to the fixed 128×384 target resolution
(width 128, height 384) before normalization, so the preprocessed tensor and
the kept raw image of every input share one spatial shape, and the
normalization step acts on the already-resized image. -/
theorem preprocess_fixed_resolution (img : RawImage) :
    (preprocess img).1.height = 384 ∧ (preprocess img).1.width = 128 ∧
    (preprocess img).2.height = 384 ∧ (preprocess img).2.width = 128 ∧
    (preprocess img).1 =
      normalizeTensor (toTensor (reverseChannels (cv2_resize 128 384 img))) ∧
    ∀ img' : RawImage,
      (preprocess img).1.height = (preprocess img').1.height ∧
      (preprocess img).1.width = (preprocess img').1.width :=
  ⟨rfl, rfl, rfl, rfl, rfl, fun _ => ⟨rfl, rfl⟩⟩

/-! ## Output file naming (claim C7)

The driver's output names, main.py lines 200-207, 225-232, 260-292, and the
channel-map name of `draw_features`, line 48:
```
"{}-{}-vanilla-{}.png".format(j, arch, ids[j, i])
"{}-{}-deconvnet-{}.png".format(j, arch, ids[j, i])
"{}-{}-guided-{}.png".format(j, arch, ids[j, i])
"{}-{}-gradcam-{}-{}.png".format(j, arch, target_layer, ids[j, i])
"{}-{}-guided_gradcam-{}-{}.png".format(j, arch, target_layer, ids[j, i])
"{}/{}-channelmap-{}.png".format(output_dir, i, target_layer)
```
The first five are joined to `output_dir` with `osp.join`. -/

/-- Does the needle occur at the head of the haystack (character lists)? -/
def leadsWith : List Char → List Char → Bool
  | [], _ => true
  | _ :: _, [] => false
  | a :: as, b :: bs => a == b && leadsWith as bs

/-- Does the needle occur anywhere in the haystack (character lists)? -/
def hasSubList (needle : List Char) : List Char → Bool
  | [] => leadsWith needle []
  | b :: bs => leadsWith needle (b :: bs) || hasSubList needle bs

/-- Substring test on strings. -/
def strHasSub (needle hay : String) : Bool :=
  hasSubList needle.data hay.data

theorem leadsWith_append_self : ∀ n y : List Char, leadsWith n (n ++ y) = true := by
  intro n
  induction n with
  | nil => intro y; rfl
  | cons a as ih =>
    intro y
    show (a == a && leadsWith as (as ++ y)) = true
    rw [beq_self_eq_true, ih y, Bool.and_self]

theorem leadsWith_extend : ∀ n x y : List Char,
    leadsWith n x = true → leadsWith n (x ++ y) = true := by
  intro n
  induction n with
  | nil => intro x y _; rfl
  | cons a as ih =>
    intro x y h
    cases x with
    | nil => exact absurd h (by simp [leadsWith])
    | cons b bs =>
      have h' : (a == b && leadsWith as bs) = true := h
      simp only [Bool.and_eq_true] at h'
      obtain ⟨hab, hbs⟩ := h'
      show (a == b && leadsWith as (bs ++ y)) = true
      rw [hab, ih bs y hbs, Bool.and_self]

theorem hasSubList_nil_needle : ∀ l : List Char, hasSubList [] l = true := by
  intro l
  cases l with
  | nil => rfl
  | cons b bs =>
    show (leadsWith [] (b :: bs) || hasSubList [] bs) = true
    rfl

theorem hasSubList_here : ∀ n y : List Char, hasSubList n (n ++ y) = true := by
  intro n y
  cases n with
  | nil => exact hasSubList_nil_needle y
  | cons a as =>
    show (leadsWith (a :: as) ((a :: as) ++ y) || _) = true
    rw [leadsWith_append_self, Bool.true_or]

theorem hasSubList_append_r : ∀ (x : List Char) {n y : List Char},
    hasSubList n y = true → hasSubList n (x ++ y) = true := by
  intro x
  induction x with
  | nil => intro n y h; exact h
  | cons b bs ih =>
    intro n y h
    show (leadsWith n (b :: (bs ++ y)) || hasSubList n (bs ++ y)) = true
    rw [ih h, Bool.or_true]

theorem hasSubList_append_l : ∀ {n} (x : List Char) (y : List Char),
    hasSubList n x = true → hasSubList n (x ++ y) = true := by
  intro n x
  induction x with
  | nil =>
    intro y h
    have hn : leadsWith n [] = true := h
    cases n with
    | nil => exact hasSubList_nil_needle y
    | cons a as => exact absurd hn (by simp [leadsWith])
  | cons b bs ih =>
    intro y h
    have h' : (leadsWith n (b :: bs) || hasSubList n bs) = true := h
    simp only [Bool.or_eq_true] at h'
    rcases h' with hl | hr
    · show (leadsWith n ((b :: bs) ++ y) || _) = true
      rw [leadsWith_extend n (b :: bs) y hl, Bool.true_or]
    · show (_ || hasSubList n (bs ++ y)) = true
      rw [ih y hr, Bool.or_true]

theorem strHasSub_self (s : String) : strHasSub s s = true := by
  have h := hasSubList_here s.data []
  rwa [List.append_nil] at h

theorem strHasSub_left {n x : String} (y : String)
    (h : strHasSub n x = true) : strHasSub n (x ++ y) = true := by
  unfold strHasSub at h ⊢
  rw [String.data_append]
  exact hasSubList_append_l x.data y.data h

theorem strHasSub_right (x : String) {n y : String}
    (h : strHasSub n y = true) : strHasSub n (x ++ y) = true := by
  unfold strHasSub at h ⊢
  rw [String.data_append]
  exact hasSubList_append_r x.data h

/-- `osp.join(output_dir, name)` for a plain directory path. -/
def ospJoin (dir name : String) : String := dir ++ "/" ++ name

/-- main.py line 204: `"{}-{}-vanilla-{}.png".format(j, arch, ids[j, i])`,
joined to the output directory. -/
def vanillaFilename (output_dir : String) (j : Nat) (arch : String)
    (classId : Nat) : String :=
  ospJoin output_dir
    (toString j ++ "-" ++ arch ++ "-vanilla-" ++ toString classId ++ ".png")

/-- main.py line 229: `"{}-{}-deconvnet-{}.png".format(j, arch, ids[j, i])`. -/
def deconvnetFilename (output_dir : String) (j : Nat) (arch : String)
    (classId : Nat) : String :=
  ospJoin output_dir
    (toString j ++ "-" ++ arch ++ "-deconvnet-" ++ toString classId ++ ".png")

/-- main.py line 264: `"{}-{}-guided-{}.png".format(j, arch, ids[j, i])`. -/
def guidedFilename (output_dir : String) (j : Nat) (arch : String)
    (classId : Nat) : String :=
  ospJoin output_dir
    (toString j ++ "-" ++ arch ++ "-guided-" ++ toString classId ++ ".png")

/-- main.py lines 273-276:
`"{}-{}-gradcam-{}-{}.png".format(j, arch, target_layer, ids[j, i])`. -/
def gradcamFilename (output_dir : String) (j : Nat)
    (arch target_layer : String) (classId : Nat) : String :=
  ospJoin output_dir
    (toString j ++ "-" ++ arch ++ "-gradcam-" ++ target_layer ++ "-" ++
      toString classId ++ ".png")

/-- main.py lines 286-289:
`"{}-{}-guided_gradcam-{}-{}.png".format(j, arch, target_layer, ids[j, i])`. -/
def guidedGradcamFilename (output_dir : String) (j : Nat)
    (arch target_layer : String) (classId : Nat) : String :=
  ospJoin output_dir
    (toString j ++ "-" ++ arch ++ "-guided_gradcam-" ++ target_layer ++ "-" ++
      toString classId ++ ".png")

/-- main.py line 48: `"{}/{}-channelmap-{}.png".format(output_dir, i,
target_layer)` — note: no architecture component. -/
def channelmapFilename (output_dir : String) (i : Nat)
    (target_layer : String) : String :=
  output_dir ++ "/" ++ toString i ++ "-channelmap-" ++ target_layer ++ ".png"

/-- All output file names one driver iteration produces for sample `j` and
predicted class `classId`. -/
def driverOutputNames (output_dir arch target_layer : String)
    (j classId : Nat) : List String :=
  [vanillaFilename output_dir j arch classId,
   deconvnetFilename output_dir j arch classId,
   guidedFilename output_dir j arch classId,
   gradcamFilename output_dir j arch target_layer classId,
   guidedGradcamFilename output_dir j arch target_layer classId,
   channelmapFilename output_dir j target_layer]

/-- Claim C7 as stated: every output file name the driver produces combines
the sample index and the architecture name (plus a technique tag), and the
Grad-CAM variants additionally the target layer and the class id. -/
def filenamePatternProp : Prop :=
  ∀ output_dir arch target_layer : String, ∀ j classId : Nat,
    (∀ nm ∈ driverOutputNames output_dir arch target_layer j classId,
      strHasSub (toString j) nm = true ∧ strHasSub arch nm = true) ∧
    strHasSub target_layer
      (gradcamFilename output_dir j arch target_layer classId) = true ∧
    strHasSub (toString classId)
      (gradcamFilename output_dir j arch target_layer classId) = true ∧
    strHasSub target_layer
      (guidedGradcamFilename output_dir j arch target_layer classId) = true ∧
    strHasSub (toString classId)
      (guidedGradcamFilename output_dir j arch target_layer classId) = true

/-- C7: counterexample to the claim as stated. The channel-map output name
for sample 0, layer `layer4`, in a run with architecture `resnet50`, is
`results/0-channelmap-layer4.png`: it does not contain the architecture
name. -/
theorem channelmap_filename_omits_arch : ¬ filenamePatternProp := by
  intro h
  have hmem : channelmapFilename "results" 0 "layer4" ∈
      driverOutputNames "results" "resnet50" "layer4" 0 1 := by
    simp [driverOutputNames]
  have harch := ((h "results" "resnet50" "layer4" 0 1).1 _ hmem).2
  exact absurd harch (by decide)

/-- C7 (amended): the five per-class output names deterministically combine
the sample index, the architecture, a technique tag and the predicted class
id, the two Grad-CAM variants additionally the target layer; the channel-map
name combines the sample index, the `channelmap` tag and the target layer,
but omits the architecture. -/
theorem output_filename_patterns (output_dir arch target_layer : String)
    (j classId : Nat) :
    (strHasSub (toString j) (vanillaFilename output_dir j arch classId) = true ∧
     strHasSub arch (vanillaFilename output_dir j arch classId) = true ∧
     strHasSub "-vanilla-" (vanillaFilename output_dir j arch classId) = true ∧
     strHasSub (toString classId)
       (vanillaFilename output_dir j arch classId) = true) ∧
    (strHasSub (toString j) (deconvnetFilename output_dir j arch classId) = true ∧
     strHasSub arch (deconvnetFilename output_dir j arch classId) = true ∧
     strHasSub "-deconvnet-" (deconvnetFilename output_dir j arch classId) = true ∧
     strHasSub (toString classId)
       (deconvnetFilename output_dir j arch classId) = true) ∧
    (strHasSub (toString j) (guidedFilename output_dir j arch classId) = true ∧
     strHasSub arch (guidedFilename output_dir j arch classId) = true ∧
     strHasSub "-guided-" (guidedFilename output_dir j arch classId) = true ∧
     strHasSub (toString classId)
       (guidedFilename output_dir j arch classId) = true) ∧
    (strHasSub (toString j)
       (gradcamFilename output_dir j arch target_layer classId) = true ∧
     strHasSub arch
       (gradcamFilename output_dir j arch target_layer classId) = true ∧
     strHasSub "-gradcam-"
       (gradcamFilename output_dir j arch target_layer classId) = true ∧
     strHasSub target_layer
       (gradcamFilename output_dir j arch target_layer classId) = true ∧
     strHasSub (toString classId)
       (gradcamFilename output_dir j arch target_layer classId) = true) ∧
    (strHasSub (toString j)
       (guidedGradcamFilename output_dir j arch target_layer classId) = true ∧
     strHasSub arch
       (guidedGradcamFilename output_dir j arch target_layer classId) = true ∧
     strHasSub "-guided_gradcam-"
       (guidedGradcamFilename output_dir j arch target_layer classId) = true ∧
     strHasSub target_layer
       (guidedGradcamFilename output_dir j arch target_layer classId) = true ∧
     strHasSub (toString classId)
       (guidedGradcamFilename output_dir j arch target_layer classId) = true) ∧
    (strHasSub (toString j)
       (channelmapFilename output_dir j target_layer) = true ∧
     strHasSub "-channelmap-"
       (channelmapFilename output_dir j target_layer) = true ∧
     strHasSub target_layer
       (channelmapFilename output_dir j target_layer) = true) := by
  simp only [vanillaFilename, deconvnetFilename, guidedFilename,
    gradcamFilename, guidedGradcamFilename, channelmapFilename, ospJoin]
  refine ⟨⟨?_, ?_, ?_, ?_⟩, ⟨?_, ?_, ?_, ?_⟩, ⟨?_, ?_, ?_, ?_⟩,
    ⟨?_, ?_, ?_, ?_, ?_⟩, ⟨?_, ?_, ?_, ?_, ?_⟩, ⟨?_, ?_, ?_⟩⟩
  · exact strHasSub_right _ (strHasSub_left _ (strHasSub_left _
      (strHasSub_left _ (strHasSub_left _ (strHasSub_left _
        (strHasSub_self _))))))
  · exact strHasSub_right _ (strHasSub_left _ (strHasSub_left _
      (strHasSub_left _ (strHasSub_right _ (strHasSub_self _)))))
  · exact strHasSub_right _ (strHasSub_left _ (strHasSub_left _
      (strHasSub_right _ (strHasSub_self _))))
  · exact strHasSub_right _ (strHasSub_left _ (strHasSub_right _
      (strHasSub_self _)))
  · exact strHasSub_right _ (strHasSub_left _ (strHasSub_left _
      (strHasSub_left _ (strHasSub_left _ (strHasSub_left _
        (strHasSub_self _))))))
  · exact strHasSub_right _ (strHasSub_left _ (strHasSub_left _
      (strHasSub_left _ (strHasSub_right _ (strHasSub_self _)))))
  · exact strHasSub_right _ (strHasSub_left _ (strHasSub_left _
      (strHasSub_right _ (strHasSub_self _))))
  · exact strHasSub_right _ (strHasSub_left _ (strHasSub_right _
      (strHasSub_self _)))
  · exact strHasSub_right _ (strHasSub_left _ (strHasSub_left _
      (strHasSub_left _ (strHasSub_left _ (strHasSub_left _
        (strHasSub_self _))))))
  · exact strHasSub_right _ (strHasSub_left _ (strHasSub_left _
      (strHasSub_left _ (strHasSub_right _ (strHasSub_self _)))))
  · exact strHasSub_right _ (strHasSub_left _ (strHasSub_left _
      (strHasSub_right _ (strHasSub_self _))))
  · exact strHasSub_right _ (strHasSub_left _ (strHasSub_right _
      (strHasSub_self _)))
  · exact strHasSub_right _ (strHasSub_left _ (strHasSub_left _
      (strHasSub_left _ (strHasSub_left _ (strHasSub_left _
        (strHasSub_left _ (strHasSub_left _ (strHasSub_self _))))))))
  · exact strHasSub_right _ (strHasSub_left _ (strHasSub_left _
      (strHasSub_left _ (strHasSub_left _ (strHasSub_left _
        (strHasSub_right _ (strHasSub_self _)))))))
  · exact strHasSub_right _ (strHasSub_left _ (strHasSub_left _
      (strHasSub_left _ (strHasSub_left _ (strHasSub_right _
        (strHasSub_self _))))))
  · exact strHasSub_right _ (strHasSub_left _ (strHasSub_left _
      (strHasSub_left _ (strHasSub_right _ (strHasSub_self _)))))
  · exact strHasSub_right _ (strHasSub_left _ (strHasSub_right _
      (strHasSub_self _)))
  · exact strHasSub_right _ (strHasSub_left _ (strHasSub_left _
      (strHasSub_left _ (strHasSub_left _ (strHasSub_left _
        (strHasSub_left _ (strHasSub_left _ (strHasSub_self _))))))))
  · exact strHasSub_right _ (strHasSub_left _ (strHasSub_left _
      (strHasSub_left _ (strHasSub_left _ (strHasSub_left _
        (strHasSub_right _ (strHasSub_self _)))))))
  · exact strHasSub_right _ (strHasSub_left _ (strHasSub_left _
      (strHasSub_left _ (strHasSub_left _ (strHasSub_right _
        (strHasSub_self _))))))
  · exact strHasSub_right _ (strHasSub_left _ (strHasSub_left _
      (strHasSub_left _ (strHasSub_right _ (strHasSub_self _)))))
  · exact strHasSub_right _ (strHasSub_left _ (strHasSub_right _
      (strHasSub_self _)))
  · exact strHasSub_left _ (strHasSub_left _ (strHasSub_left _
      (strHasSub_right _ (strHasSub_self _))))
  · exact strHasSub_left _ (strHasSub_left _ (strHasSub_right _
      (strHasSub_self _)))
  · exact strHasSub_left _ (strHasSub_right _ (strHasSub_self _))

/-! ## The driver's method-lifecycle trace (claims C2, C6, C9)

`visualization` (main.py lines 140-298) is single-threaded and synchronous;
its calls on the attribution method instances are embedded as a list of
events in program order. A `backwardPass m src i` event records that instance
`m` was seeded with column `i` of the class ranking returned by instance
`src`'s `forward` call (in the source every call is `X.backward(ids=ids[:, [i]])`
with `ids` the ranking from `bp.forward`). A `forwardPass m used` event
records whether the `(probs, ids)` return value was bound (`probs, ids = ...`)
or discarded (`_ = ...`). -/

/-- The five method instances `visualization` creates: `bp` (line 188),
`deconv` (line 215), `gcam` (line 239), `gbp` (line 242), and the second
`GradCAM` used only for channel visualization (line 295). -/
inductive Method
  | bp
  | deconv
  | gcam
  | gbp
  | gcamViz
  deriving DecidableEq, Repr

/-- One call the driver performs on a method instance. -/
inductive Event
  | create (m : Method)
  | forwardPass (m : Method) (resultUsed : Bool)
  | backwardPass (m : Method) (src : Method) (rank : Nat)
  | generate (m : Method)
  | removeHook (m : Method)
  | channelViz (m : Method)
  deriving DecidableEq, Repr

/-- The instance an event acts on. -/
def Event.target : Event → Method
  | .create m => m
  | .forwardPass m _ => m
  | .backwardPass m _ _ => m
  | .generate m => m
  | .removeHook m => m
  | .channelViz m => m

/-- The instance that runs a forward or backward pass through the shared
network in this event, if any. -/
def passOf : Event → Option Method
  | .forwardPass m _ => some m
  | .backwardPass m _ _ => some m
  | _ => none

/-- One iteration of the vanilla-backpropagation loop
(main.py lines 191-194): `bp.backward(ids=ids[:, [i]]); bp.generate()`. -/
def bpBlock (i : Nat) : List Event :=
  [.backwardPass .bp .bp i, .generate .bp]

/-- One iteration of the deconvnet loop (main.py lines 218-220):
`deconv.backward(ids=ids[:, [i]]); deconv.generate()`. -/
def deconvBlock (i : Nat) : List Event :=
  [.backwardPass .deconv .bp i, .generate .deconv]

/-- One iteration of the Grad-CAM / guided-backpropagation loop
(main.py lines 245-253): `gbp.backward(ids=ids[:, [i]]); gbp.generate();
gcam.backward(ids=ids[:, [i]]); gcam.generate(target_layer)`. -/
def gcamBlock (i : Nat) : List Event :=
  [.backwardPass .gbp .bp i, .generate .gbp,
   .backwardPass .gcam .bp i, .generate .gcam]

/-- main.py lines 188-207: create `bp`, forward it (result bound to
`probs, ids`), then the top-k loop. -/
def bpSegment (topk : Nat) : List Event :=
  [.create .bp, .forwardPass .bp true] ++ (List.range topk).flatMap bpBlock

/-- main.py lines 215-232: create `deconv`, forward it (result discarded),
then the top-k loop. -/
def deconvSegment (topk : Nat) : List Event :=
  [.create .deconv, .forwardPass .deconv false] ++
    (List.range topk).flatMap deconvBlock

/-- main.py lines 239-292: create and forward `gcam`, create and forward
`gbp` (results discarded), then the top-k loop. -/
def gcamSegment (topk : Nat) : List Event :=
  [.create .gcam, .forwardPass .gcam false,
   .create .gbp, .forwardPass .gbp false] ++
    (List.range topk).flatMap gcamBlock

/-- main.py lines 294-298: a fresh `GradCAM` is created, forwarded (result
discarded) and used for channel visualization only. -/
def vizSegment : List Event :=
  [.create .gcamViz, .forwardPass .gcamViz false, .channelViz .gcamViz]

/-- The full call trace of `visualization` for a given `topk`
(main.py lines 185-298): `bp.remove_hook()` at line 210 and
`deconv.remove_hook()` at line 234 are the only hook removals. -/
def visualizationTrace (topk : Nat) : List Event :=
  bpSegment topk ++ [.removeHook .bp] ++
    deconvSegment topk ++ [.removeHook .deconv] ++
    gcamSegment topk ++ vizSegment

/-- Claim C2's discipline as a checker: whenever instance `m` is created at
position `i` and a different instance runs a pass at a later position `j`,
some `remove_hook` on `m` occurs strictly between them. -/
def hookDiscipline (tr : List Event) : Bool :=
  let n := tr.length
  (List.range n).all fun i =>
    (List.range n).all fun j =>
      !(decide (i < j)) ||
        (match tr.get? i, (tr.get? j).bind passOf with
         | some (.create m), some m' =>
           (decide (m = m')) ||
             (List.range n).any fun k =>
               decide (i < k) && decide (k < j) &&
                 decide (tr.get? k = some (.removeHook m))
         | _, _ => true)

theorem flatMap_const_nil {A B : Type} :
    ∀ l : List A, (l.flatMap fun _ => ([] : List B)) = [] := by
  intro l
  induction l with
  | nil => rfl
  | cons a t ih => rw [List.flatMap_cons, List.nil_append, ih]

/-- The subsequence of trace events acting on instance `m`. -/
def projOn (m : Method) (tr : List Event) : List Event :=
  tr.filter (fun e => e.target == m)

/-- C2: counterexample to the claim as stated, at `topk = 1`. In the driver's
trace the `gcam` instance is created (hooks attached) and the `gbp` instance
later runs forward and backward passes on the same network, with no
`remove_hook` on `gcam` in between (there is none at all). -/
theorem hook_discipline_violated_at_topk_one :
    hookDiscipline (visualizationTrace 1) = false := by decide

/-- C2 (amended): `bp.remove_hook()` and `deconv.remove_hook()` are called
before any later pass of another instance (all passes inside the `bp` and
`deconv` segments belong to those instances), but no `remove_hook` is ever
called on the `GradCAM` and `GuidedBackPropagation` instances, whose hooks
stay attached while other instances run passes. -/
theorem hook_removal_incomplete (topk : Nat) :
    (∀ e ∈ bpSegment topk, ∀ m, passOf e = some m → m = .bp) ∧
    (∀ e ∈ deconvSegment topk, ∀ m, passOf e = some m → m = .deconv) ∧
    Event.removeHook .bp ∈ visualizationTrace topk ∧
    Event.removeHook .deconv ∈ visualizationTrace topk ∧
    Event.removeHook .gcam ∉ visualizationTrace topk ∧
    Event.removeHook .gbp ∉ visualizationTrace topk ∧
    Event.removeHook .gcamViz ∉ visualizationTrace topk := by
  refine ⟨?_, ?_, ?_, ?_, ?_, ?_, ?_⟩
  · intro e he m hp
    simp [bpSegment, bpBlock, List.mem_append, List.mem_flatMap,
      List.mem_range] at he
    rcases he with rfl | rfl | ⟨a, ha, rfl | rfl⟩ <;>
      simp [passOf] at hp <;> simp [hp]
  · intro e he m hp
    simp [deconvSegment, deconvBlock, List.mem_append, List.mem_flatMap,
      List.mem_range] at he
    rcases he with rfl | rfl | ⟨a, ha, rfl | rfl⟩ <;>
      simp [passOf] at hp <;> simp [hp]
  · simp [visualizationTrace, bpSegment, deconvSegment, gcamSegment,
      vizSegment, bpBlock, deconvBlock, gcamBlock]
  · simp [visualizationTrace, bpSegment, deconvSegment, gcamSegment,
      vizSegment, bpBlock, deconvBlock, gcamBlock]
  · simp [visualizationTrace, bpSegment, deconvSegment, gcamSegment,
      vizSegment, bpBlock, deconvBlock, gcamBlock]
  · simp [visualizationTrace, bpSegment, deconvSegment, gcamSegment,
      vizSegment, bpBlock, deconvBlock, gcamBlock]
  · simp [visualizationTrace, bpSegment, deconvSegment, gcamSegment,
      vizSegment, bpBlock, deconvBlock, gcamBlock]

/-- C6: the driver's per-instance call orders. Each attribution instance is
forwarded exactly once and then runs its `topk` backward passes strictly
sequentially in rank order 0, 1, ..., with its `generate` immediately after
each backward pass and before its next backward pass; the channel-visualization
instance only forwards. -/
theorem per_instance_forward_backward_generate_order (topk : Nat) :
    projOn .bp (visualizationTrace topk) =
      [.create .bp, .forwardPass .bp true] ++
        (List.range topk).flatMap (fun i =>
          [.backwardPass .bp .bp i, .generate .bp]) ++ [.removeHook .bp] ∧
    projOn .deconv (visualizationTrace topk) =
      [.create .deconv, .forwardPass .deconv false] ++
        (List.range topk).flatMap (fun i =>
          [.backwardPass .deconv .bp i, .generate .deconv]) ++
        [.removeHook .deconv] ∧
    projOn .gbp (visualizationTrace topk) =
      [.create .gbp, .forwardPass .gbp false] ++
        (List.range topk).flatMap (fun i =>
          [.backwardPass .gbp .bp i, .generate .gbp]) ∧
    projOn .gcam (visualizationTrace topk) =
      [.create .gcam, .forwardPass .gcam false] ++
        (List.range topk).flatMap (fun i =>
          [.backwardPass .gcam .bp i, .generate .gcam]) ∧
    projOn .gcamViz (visualizationTrace topk) = vizSegment := by
  refine ⟨?_, ?_, ?_, ?_, ?_⟩ <;>
    simp [projOn, visualizationTrace, bpSegment, deconvSegment, gcamSegment,
      vizSegment, bpBlock, deconvBlock, gcamBlock, List.filter_append,
      List.filter_flatMap, Event.target, flatMap_const_nil]

/-- C9: every backward pass in the driver's trace is seeded with a column of
the single class ranking returned by `bp`'s forward call (column index below
`topk`), the forward results of all other instances are discarded, and for
each rank below `topk` all four attribution instances receive that column. -/
theorem backward_seeded_from_bp_ranking (topk : Nat) :
    (∀ e ∈ visualizationTrace topk, ∀ m src i,
      e = Event.backwardPass m src i → src = .bp ∧ i < topk) ∧
    (∀ e ∈ visualizationTrace topk, ∀ m used,
      e = Event.forwardPass m used → (used = true ↔ m = .bp)) ∧
    (∀ i, i < topk →
      Event.backwardPass .bp .bp i ∈ visualizationTrace topk ∧
      Event.backwardPass .deconv .bp i ∈ visualizationTrace topk ∧
      Event.backwardPass .gbp .bp i ∈ visualizationTrace topk ∧
      Event.backwardPass .gcam .bp i ∈ visualizationTrace topk) := by
  refine ⟨?_, ?_, ?_⟩
  · intro e he m src i hei
    subst hei
    simp [visualizationTrace, bpSegment, deconvSegment, gcamSegment,
      vizSegment, bpBlock, deconvBlock, gcamBlock, List.mem_append,
      List.mem_flatMap, List.mem_range] at he
    rcases he with ⟨a, ha, h⟩ | ⟨a, ha, h⟩ | ⟨a, ha, h | h⟩ <;>
      (obtain ⟨-, rfl, rfl⟩ := h; exact ⟨rfl, ha⟩)
  · intro e he m used hei
    subst hei
    simp [visualizationTrace, bpSegment, deconvSegment, gcamSegment,
      vizSegment, bpBlock, deconvBlock, gcamBlock, List.mem_append,
      List.mem_flatMap, List.mem_range] at he
    rcases he with ⟨rfl, rfl⟩ | ⟨rfl, rfl⟩ | ⟨rfl, rfl⟩ | ⟨rfl, rfl⟩ |
      ⟨rfl, rfl⟩ <;> simp
  · intro i hi
    refine ⟨?_, ?_, ?_, ?_⟩ <;>
      simp [visualizationTrace, bpSegment, deconvSegment, gcamSegment,
        vizSegment, bpBlock, deconvBlock, gcamBlock, List.mem_append,
        List.mem_flatMap, List.mem_range] <;>
      omega

/-! ## The attribution-method classes (claims C3, C4)

`main.py` imports `BackPropagation`, `Deconvnet`, `GradCAM` and
`GuidedBackPropagation` from `grad_cam`, whose source is not among the files
under verification; the definitions below are modelled from the
specification's words (spec sections 4.2, 4.4 and 9). -/

/-- Modelled from the spec: the network as seen by introspection when a
method attaches hooks — a list of named layers, each flagged as a
rectification unit or not (`grad_cam.py` is not in the sources). -/
structure IntrospectedNetwork where
  layers : List (String × Bool)

/-- Modelled from the spec (4.4, 9): Deconvnet's backward interceptor, a pure
function `(forwardActivation, incomingGradient) → outgoingGradient` that
"replaces the gradient with max(gradient, 0)" (`grad_cam.py` is not in the
sources). -/
def deconvnetInterceptor (forwardActivation incomingGradient : ℚ) : ℚ :=
  max incomingGradient 0

/-- Modelled from the spec (4.4): standard backpropagation's rule at a
rectification unit, for contrast — zero the gradient where the forward input
was negative, pass it otherwise. -/
def vanillaReluInterceptor (forwardActivation incomingGradient : ℚ) : ℚ :=
  if 0 < forwardActivation then incomingGradient else 0

/-- Modelled from the spec (4.4): Deconvnet attaches its interceptor at every
rectification unit found by network introspection, not a named subset
(`grad_cam.py` is not in the sources). -/
def deconvnetHooks (net : IntrospectedNetwork) :
    List (String × (ℚ → ℚ → ℚ)) :=
  (net.layers.filter (fun l => l.2)).map (fun l => (l.1, deconvnetInterceptor))

/-- C3: every rectification unit of the introspected network receives
Deconvnet's interceptor, which maps the incoming gradient `g` to `max g 0` —
discarding negative gradient values — independent of the forward activation's
sign; on a negative forward activation with positive incoming gradient it
diverges from standard backprop's rule. -/
theorem deconvnet_backward_rule_max_zero (net : IntrospectedNetwork)
    (name : String) (hmem : (name, true) ∈ net.layers) :
    (name, deconvnetInterceptor) ∈ deconvnetHooks net ∧
    (∀ a g : ℚ, deconvnetInterceptor a g = max g 0) ∧
    (∀ a a' g : ℚ, deconvnetInterceptor a g = deconvnetInterceptor a' g) ∧
    (∀ a g : ℚ, g ≤ 0 → deconvnetInterceptor a g = 0) ∧
    (∀ a g : ℚ, 0 ≤ g → deconvnetInterceptor a g = g) ∧
    (∀ a g : ℚ, a < 0 → 0 < g →
      deconvnetInterceptor a g = g ∧ vanillaReluInterceptor a g = 0) := by
  refine ⟨?_, fun a g => rfl, fun a a' g => rfl, ?_, ?_, ?_⟩
  · apply List.mem_map.mpr
    refine ⟨(name, true), ?_, rfl⟩
    exact List.mem_filter.mpr ⟨hmem, rfl⟩
  · intro a g hg
    exact max_eq_right hg
  · intro a g hg
    exact max_eq_left hg
  · intro a g ha hg
    exact ⟨max_eq_left (le_of_lt hg), if_neg (by linarith)⟩

theorem deconvnet_backward_rule_max_zero_witness :
    ("relu1", true) ∈ [("conv1", false), ("relu1", true)] ∧
    ("relu1", deconvnetInterceptor) ∈
      deconvnetHooks ⟨[("conv1", false), ("relu1", true)]⟩ ∧
    deconvnetInterceptor (-2) 3 = 3 ∧ deconvnetInterceptor 2 (-3) = 0 ∧
    deconvnetInterceptor (-2) (-3) = 0 ∧ vanillaReluInterceptor (-2) 3 = 0 :=
  have h := deconvnet_backward_rule_max_zero
    ⟨[("conv1", false), ("relu1", true)]⟩ "relu1" (by decide)
  ⟨by decide, h.1,
   (h.2.2.2.2.2 (-2) 3 (by norm_num) (by norm_num)).1,
   h.2.2.2.1 2 (-3) (by norm_num),
   h.2.2.2.1 (-2) (-3) (by norm_num),
   (h.2.2.2.2.2 (-2) 3 (by norm_num) (by norm_num)).2⟩

/-- Modelled from the spec (4.2): the lifecycle states of the shared
AttributionMethod protocol (`grad_cam.py` is not in the sources). -/
inductive LifecycleState
  | uninitialized
  | forwarded
  | backwarded
  deriving DecidableEq, Repr

/-- Modelled from the spec (7): the error kinds relevant to the lifecycle. -/
inductive AttrError
  | invalidState
  | layerNotFound
  deriving DecidableEq, Repr

/-- The four attribution techniques sharing the protocol. -/
inductive Technique
  | backPropagation
  | deconvnet
  | gradCAM
  | guidedBackPropagation
  deriving DecidableEq, Repr

/-- Modelled from the spec (4.2): an attribution method instance — a
technique tag plus its lifecycle state. -/
structure AttrMethod where
  technique : Technique
  state : LifecycleState

/-- A freshly created instance, before any call. -/
def AttrMethod.new (t : Technique) : AttrMethod :=
  ⟨t, .uninitialized⟩

/-- Modelled from the spec (4.2): `forward(batch)` always succeeds and
transitions to Forwarded, superseding previous state. -/
def AttrMethod.forward (m : AttrMethod) : AttrMethod :=
  { m with state := .forwarded }

/-- Modelled from the spec (4.2): `backward(targetSelector)` requires state
at least Forwarded, else fails with InvalidState; on success transitions to
Backwarded. -/
def AttrMethod.backward (m : AttrMethod) : Except AttrError AttrMethod :=
  if m.state = .uninitialized then .error .invalidState
  else .ok { m with state := .backwarded }

/-- Modelled from the spec (4.2): `generate()` requires state at least
Backwarded, else fails with InvalidState; it yields the attribution map and
stays Backwarded. -/
def AttrMethod.generate (m : AttrMethod) : Except AttrError AttrMethod :=
  if m.state = .backwarded then .ok m else .error .invalidState

/-- A lifecycle call made on an instance. -/
inductive LifecycleCall
  | forwardCall
  | backwardCall
  | generateCall
  deriving DecidableEq, Repr

/-- The state evolution of one instance under a call (failed calls leave the
state unchanged). -/
def applyCall (m : AttrMethod) : LifecycleCall → AttrMethod
  | .forwardCall => m.forward
  | .backwardCall =>
    match m.backward with
    | .ok m' => m'
    | .error _ => m
  | .generateCall => m

/-- Run a sequence of lifecycle calls on an instance. -/
def runCalls (m : AttrMethod) (cs : List LifecycleCall) : AttrMethod :=
  cs.foldl applyCall m

theorem runCalls_technique (cs : List LifecycleCall) :
    ∀ m : AttrMethod, (runCalls m cs).technique = m.technique := by
  induction cs with
  | nil => intro m; rfl
  | cons c t ih =>
    intro m
    show (runCalls (applyCall m c) t).technique = m.technique
    rw [ih (applyCall m c)]
    cases c with
    | forwardCall => rfl
    | backwardCall =>
      show (match m.backward with
        | .ok m' => m'
        | .error _ => m).technique = m.technique
      unfold AttrMethod.backward
      by_cases h : m.state = .uninitialized
      · rw [if_pos h]
      · rw [if_neg h]
    | generateCall => rfl

theorem runCalls_state_no_backward (cs : List LifecycleCall)
    (hnb : LifecycleCall.backwardCall ∉ cs) :
    ∀ m : AttrMethod, m.state ≠ .backwarded →
      (runCalls m cs).state ≠ .backwarded := by
  induction cs with
  | nil => intro m h; exact h
  | cons c t ih =>
    intro m h
    have hc : c ≠ .backwardCall := fun hc =>
      hnb (hc ▸ List.mem_cons_self c t)
    have hnt : LifecycleCall.backwardCall ∉ t := fun ht =>
      hnb (List.mem_cons_of_mem c ht)
    show (runCalls (applyCall m c) t).state ≠ .backwarded
    apply ih hnt
    cases c with
    | forwardCall => simp [applyCall, AttrMethod.forward]
    | backwardCall => exact absurd rfl hc
    | generateCall => exact h

theorem runCalls_state_no_forward (cs : List LifecycleCall)
    (hnf : LifecycleCall.forwardCall ∉ cs) :
    ∀ m : AttrMethod, m.state = .uninitialized →
      (runCalls m cs).state = .uninitialized := by
  induction cs with
  | nil => intro m h; exact h
  | cons c t ih =>
    intro m h
    have hc : c ≠ .forwardCall := fun hc =>
      hnf (hc ▸ List.mem_cons_self c t)
    have hnt : LifecycleCall.forwardCall ∉ t := fun ht =>
      hnf (List.mem_cons_of_mem c ht)
    show (runCalls (applyCall m c) t).state = .uninitialized
    apply ih hnt
    cases c with
    | forwardCall => exact absurd rfl hc
    | backwardCall => simp [applyCall, AttrMethod.backward, if_pos h, h]
    | generateCall => exact h

/-- C4: for every technique and every call sequence on a fresh instance,
if no `backward` has been called then `generate()` fails with InvalidState
(no stale or undefined data is returned), and if no `forward` has been
called then `backward()` fails with InvalidState. -/
theorem generate_backward_invalid_state (t : Technique)
    (cs : List LifecycleCall) :
    (LifecycleCall.backwardCall ∉ cs →
      (runCalls (AttrMethod.new t) cs).generate =
        .error AttrError.invalidState) ∧
    (LifecycleCall.forwardCall ∉ cs →
      (runCalls (AttrMethod.new t) cs).backward =
        .error AttrError.invalidState) := by
  constructor
  · intro hnb
    have hs : (runCalls (AttrMethod.new t) cs).state ≠ .backwarded :=
      runCalls_state_no_backward cs hnb (AttrMethod.new t) (by simp [AttrMethod.new])
    unfold AttrMethod.generate
    rw [if_neg hs]
  · intro hnf
    have hs : (runCalls (AttrMethod.new t) cs).state = .uninitialized :=
      runCalls_state_no_forward cs hnf (AttrMethod.new t) rfl
    unfold AttrMethod.backward
    rw [if_pos hs]

theorem generate_backward_invalid_state_witness :
    (LifecycleCall.backwardCall ∉
        [LifecycleCall.forwardCall, LifecycleCall.generateCall] ∧
      (runCalls (AttrMethod.new .gradCAM)
        [LifecycleCall.forwardCall, LifecycleCall.generateCall]).generate =
          .error AttrError.invalidState) ∧
    (LifecycleCall.forwardCall ∉ [LifecycleCall.generateCall] ∧
      (runCalls (AttrMethod.new .deconvnet)
        [LifecycleCall.generateCall]).backward =
          .error AttrError.invalidState) :=
  ⟨⟨by decide,
    (generate_backward_invalid_state .gradCAM
      [LifecycleCall.forwardCall, LifecycleCall.generateCall]).1 (by decide)⟩,
   ⟨by decide,
    (generate_backward_invalid_state .deconvnet
      [LifecycleCall.generateCall]).2 (by decide)⟩⟩
